import Mathlib

/-!
Verification development for the hub-api-gateway request-routing and
resilient-proxying engine.  The definitions below are shallow embeddings of
the Go sources: the circuit breaker (`internal/proxy` circuit breaker file),
the route table (`internal/router/route.go`, `internal/router/service_router.go`),
the auth middleware (`internal/middleware/auth_middleware.go`) and the proxy
error paths (`internal/proxy` proxy handler).  Machine integers (`uint32`) are
modelled as `Nat` reduced modulo `2^32` where the source increments them;
wall-clock instants are modelled as `Nat` nanosecond timestamps passed
explicitly to each operation.
-/

namespace Gateway

/-- Reduction modulo `2^32`, the wrap-around of Go's `uint32` counters. -/
def u32 (n : Nat) : Nat := n % 4294967296

/-! ## Circuit breaker (Go: `CircuitBreaker` in the proxy package) -/

/-- `CircuitState` from the source: Closed (normal), Open (reject), HalfOpen
(testing recovery). -/
inductive CircuitState where
  | StateClosed
  | StateOpen
  | StateHalfOpen
deriving DecidableEq, Repr

/-- The mutable fields and thresholds of one `CircuitBreaker` value.
`lastFailureTime` is a nanosecond timestamp; `failures` and `successCount`
are `uint32` counters kept below `2^32` by `u32`. -/
structure CircuitBreaker where
  maxFailures : Nat
  resetTimeout : Nat
  halfOpenRequests : Nat
  state : CircuitState
  failures : Nat
  lastFailureTime : Nat
  successCount : Nat
deriving DecidableEq, Repr

/-- `NewCircuitBreaker`: zero thresholds are replaced by the defaults
(5 failures, 30s = 30000000000ns, 3 half-open requests); the breaker starts
Closed with zeroed counters. -/
def NewCircuitBreaker (maxFailures resetTimeout halfOpenRequests : Nat) : CircuitBreaker :=
  { maxFailures := if maxFailures = 0 then 5 else maxFailures
    resetTimeout := if resetTimeout = 0 then 30000000000 else resetTimeout
    halfOpenRequests := if halfOpenRequests = 0 then 3 else halfOpenRequests
    state := CircuitState.StateClosed
    failures := 0
    lastFailureTime := 0
    successCount := 0 }

/-- The two admission-rejection errors `ErrCircuitOpen` and
`ErrTooManyRequests`. -/
inductive AdmitError where
  | ErrCircuitOpen
  | ErrTooManyRequests
deriving DecidableEq, Repr

/-- `beforeRequest`: admission check, run at time `now`.  Closed admits;
Open admits (moving to HalfOpen with a reset probe counter) only when
`now - lastFailureTime > resetTimeout`, otherwise rejects with
`ErrCircuitOpen`; HalfOpen rejects with `ErrTooManyRequests` once
`successCount ≥ halfOpenRequests`.  Returns the rejection (if any) and the
possibly updated breaker. -/
def beforeRequest (cb : CircuitBreaker) (now : Nat) : Option AdmitError × CircuitBreaker :=
  match cb.state with
  | CircuitState.StateClosed => (none, cb)
  | CircuitState.StateOpen =>
      if now - cb.lastFailureTime > cb.resetTimeout then
        (none, { cb with state := CircuitState.StateHalfOpen, successCount := 0 })
      else
        (some AdmitError.ErrCircuitOpen, cb)
  | CircuitState.StateHalfOpen =>
      if cb.successCount ≥ cb.halfOpenRequests then
        (some AdmitError.ErrTooManyRequests, cb)
      else
        (none, cb)

/-- `onFailure`: increment the failure counter (uint32) and stamp the failure
time; Closed opens once the counter reaches `maxFailures`; HalfOpen reopens
immediately and clears the probe counter. -/
def onFailure (cb : CircuitBreaker) (now : Nat) : CircuitBreaker :=
  let cb1 := { cb with failures := u32 (cb.failures + 1), lastFailureTime := now }
  match cb1.state with
  | CircuitState.StateClosed =>
      if cb1.failures ≥ cb1.maxFailures then
        { cb1 with state := CircuitState.StateOpen }
      else cb1
  | CircuitState.StateHalfOpen =>
      { cb1 with state := CircuitState.StateOpen, successCount := 0 }
  | CircuitState.StateOpen => cb1

/-- `onSuccess`: Closed clears the failure counter; HalfOpen increments the
probe-success counter (uint32) and closes (clearing failures) once it reaches
`halfOpenRequests`. -/
def onSuccess (cb : CircuitBreaker) : CircuitBreaker :=
  match cb.state with
  | CircuitState.StateClosed => { cb with failures := 0 }
  | CircuitState.StateHalfOpen =>
      let sc := u32 (cb.successCount + 1)
      if sc ≥ cb.halfOpenRequests then
        { cb with successCount := sc, state := CircuitState.StateClosed, failures := 0 }
      else
        { cb with successCount := sc }
  | CircuitState.StateOpen => cb

/-- `afterRequest`: dispatch on whether the executed operation returned an
error. -/
def afterRequest (cb : CircuitBreaker) (now : Nat) (failed : Bool) : CircuitBreaker :=
  if failed then onFailure cb now else onSuccess cb

/-- What `Call` returns: one of the breaker's own sentinel errors, or exactly
the wrapped operation's result. -/
inductive CallReturn where
  | errCircuitOpen
  | errTooManyRequests
  | opError (e : String)
  | ok
deriving DecidableEq, Repr

/-- `Call`: admission via `beforeRequest`; when admitted, the operation runs
(its behaviour is the value `opErr`: `none` = nil error, `some e` = error `e`)
and `afterRequest` records the outcome.  The middle component records whether
the wrapped operation was invoked. -/
def Call (cb : CircuitBreaker) (now : Nat) (opErr : Option String) :
    CallReturn × Bool × CircuitBreaker :=
  match beforeRequest cb now with
  | (some AdmitError.ErrCircuitOpen, cb1) => (CallReturn.errCircuitOpen, false, cb1)
  | (some AdmitError.ErrTooManyRequests, cb1) => (CallReturn.errTooManyRequests, false, cb1)
  | (none, cb1) =>
      let cb2 := afterRequest cb1 now opErr.isSome
      match opErr with
      | some e => (CallReturn.opError e, true, cb2)
      | none => (CallReturn.ok, true, cb2)

/-- `Reset`: manual reset to Closed with zeroed counters, from any state. -/
def Reset (cb : CircuitBreaker) : CircuitBreaker :=
  { cb with state := CircuitState.StateClosed, failures := 0, successCount := 0 }

/-- Run a sequence of `Call`s; each list entry is the call's time paired with
the wrapped operation's result at that call. -/
def runCalls (cb : CircuitBreaker) (calls : List (Nat × Option String)) : CircuitBreaker :=
  calls.foldl (fun c p => (Call c p.1 p.2).2.2) cb

/-- The four state transitions listed by the spec's invariant, shape only. -/
def listedTransition (s s' : CircuitState) : Prop :=
  (s = CircuitState.StateClosed ∧ s' = CircuitState.StateOpen) ∨
  (s = CircuitState.StateOpen ∧ s' = CircuitState.StateHalfOpen) ∨
  (s = CircuitState.StateHalfOpen ∧ s' = CircuitState.StateClosed) ∨
  (s = CircuitState.StateHalfOpen ∧ s' = CircuitState.StateOpen)

instance (s s' : CircuitState) : Decidable (listedTransition s s') := by
  unfold listedTransition; infer_instance

/-- Concrete breaker used in witnesses: thresholds 2 failures / 10ns reset /
2 half-open probes. -/
def cbEx : CircuitBreaker := NewCircuitBreaker 2 10 2

/-- `cbEx` after two failing calls: an Open breaker. -/
def cbExOpen : CircuitBreaker := runCalls cbEx [(1, some "a"), (2, some "b")]

/-- `cbExOpen` admitted after the reset timeout: a HalfOpen breaker with a
zeroed probe counter. -/
def cbExHalf : CircuitBreaker := (beforeRequest cbExOpen 13).2

theorem runCalls_cons (cb : CircuitBreaker) (p : Nat × Option String)
    (rest : List (Nat × Option String)) :
    runCalls cb (p :: rest) = runCalls (Call cb p.1 p.2).2.2 rest := rfl

theorem closed_fail_step (cb : CircuitBreaker) (now : Nat) (e : String)
    (hs : cb.state = CircuitState.StateClosed) :
    (Call cb now (some e)).2.2 =
      if cb.maxFailures ≤ u32 (cb.failures + 1) then
        { cb with failures := u32 (cb.failures + 1), lastFailureTime := now,
                  state := CircuitState.StateOpen }
      else
        { cb with failures := u32 (cb.failures + 1), lastFailureTime := now } := by
  simp only [Call, beforeRequest, afterRequest, onFailure, hs, Option.isSome_some,
    if_true, ge_iff_le]

theorem closed_fail_run (fails : List (Nat × String)) (cb : CircuitBreaker)
    (hs : cb.state = CircuitState.StateClosed)
    (hcnt : cb.failures + fails.length = cb.maxFailures)
    (hlt : cb.maxFailures < 4294967296)
    (hne : fails ≠ []) :
    (runCalls cb (fails.map (fun p => (p.1, some p.2)))).state =
      CircuitState.StateOpen := by
  induction fails generalizing cb with
  | nil => exact absurd rfl hne
  | cons p rest ih =>
      have hsmall : cb.failures + 1 < 4294967296 := by
        simp only [List.length_cons] at hcnt
        omega
      have hu : u32 (cb.failures + 1) = cb.failures + 1 := Nat.mod_eq_of_lt hsmall
      rw [List.map_cons, runCalls_cons, closed_fail_step cb p.1 p.2 hs, hu]
      rcases rest with _ | ⟨q, rest'⟩
      · have hmax : cb.maxFailures ≤ cb.failures + 1 := by
          simp only [List.length_cons, List.length_nil] at hcnt
          omega
        simp only [List.map_nil, if_pos hmax]
        rfl
      · have hlt2 : ¬ cb.maxFailures ≤ cb.failures + 1 := by
          simp only [List.length_cons] at hcnt
          omega
        rw [if_neg hlt2]
        exact ih _ hs (by simp only [List.length_cons] at hcnt ⊢; omega) hlt
          (by simp)

theorem halfopen_success_step (cb : CircuitBreaker) (now : Nat)
    (hs : cb.state = CircuitState.StateHalfOpen)
    (hadm : cb.successCount < cb.halfOpenRequests) :
    (Call cb now none).2.2 =
      if cb.halfOpenRequests ≤ u32 (cb.successCount + 1) then
        { cb with successCount := u32 (cb.successCount + 1),
                  state := CircuitState.StateClosed, failures := 0 }
      else
        { cb with successCount := u32 (cb.successCount + 1) } := by
  simp only [Call, beforeRequest, afterRequest, onSuccess, hs, Option.isSome_none,
    Bool.false_eq_true, if_false, ge_iff_le, Nat.not_le.mpr hadm, if_neg]

theorem halfopen_success_run (times : List Nat) (cb : CircuitBreaker)
    (hs : cb.state = CircuitState.StateHalfOpen)
    (hcnt : cb.successCount + times.length = cb.halfOpenRequests)
    (hlt : cb.halfOpenRequests < 4294967296)
    (hne : times ≠ []) :
    (runCalls cb (times.map (fun t => (t, (none : Option String))))).state =
      CircuitState.StateClosed := by
  induction times generalizing cb with
  | nil => exact absurd rfl hne
  | cons t rest ih =>
      have hadm : cb.successCount < cb.halfOpenRequests := by
        simp only [List.length_cons] at hcnt
        omega
      have hsmall : cb.successCount + 1 < 4294967296 := by
        simp only [List.length_cons] at hcnt
        omega
      have hu : u32 (cb.successCount + 1) = cb.successCount + 1 := Nat.mod_eq_of_lt hsmall
      rw [List.map_cons, runCalls_cons, halfopen_success_step cb t hs hadm, hu]
      rcases rest with _ | ⟨q, rest'⟩
      · have hmax : cb.halfOpenRequests ≤ cb.successCount + 1 := by
          simp only [List.length_cons, List.length_nil] at hcnt
          omega
        simp only [List.map_nil, if_pos hmax]
        rfl
      · have hlt2 : ¬ cb.halfOpenRequests ≤ cb.successCount + 1 := by
          simp only [List.length_cons] at hcnt
          omega
        rw [if_neg hlt2]
        exact ih _ hs (by simp only [List.length_cons] at hcnt ⊢; omega) hlt
          (by simp)

/-- C1: circuit-breaker lifecycle.  (a) From Closed with a zeroed counter,
`maxFailures` consecutive failing `Call`s leave the breaker Open.  (b) While
Open and the elapsed time since the last failure is at most `resetTimeout`,
`Call` returns `ErrCircuitOpen`, does not invoke the operation, and leaves
the breaker unchanged.  (c) Once the elapsed time exceeds `resetTimeout`,
admission moves the breaker to HalfOpen (probe counter reset) and the
operation is executed.  (d) From HalfOpen with a zeroed probe counter,
`halfOpenRequests` consecutive successful `Call`s return the breaker to
Closed.  (e) Any admitted failing `Call` while HalfOpen reopens the breaker
immediately. -/
theorem C1_circuit_breaker_lifecycle :
    (∀ (fails : List (Nat × String)) (cb : CircuitBreaker),
      cb.state = CircuitState.StateClosed → cb.failures = 0 →
      cb.maxFailures < 4294967296 → 1 ≤ cb.maxFailures →
      fails.length = cb.maxFailures →
      (runCalls cb (fails.map (fun p => (p.1, some p.2)))).state =
        CircuitState.StateOpen)
    ∧
    (∀ (cb : CircuitBreaker) (now : Nat) (opErr : Option String),
      cb.state = CircuitState.StateOpen →
      now - cb.lastFailureTime ≤ cb.resetTimeout →
      Call cb now opErr = (CallReturn.errCircuitOpen, false, cb))
    ∧
    (∀ (cb : CircuitBreaker) (now : Nat) (opErr : Option String),
      cb.state = CircuitState.StateOpen →
      cb.resetTimeout < now - cb.lastFailureTime →
      (beforeRequest cb now).1 = none ∧
      (beforeRequest cb now).2.state = CircuitState.StateHalfOpen ∧
      (beforeRequest cb now).2.successCount = 0 ∧
      (Call cb now opErr).2.1 = true)
    ∧
    (∀ (times : List Nat) (cb : CircuitBreaker),
      cb.state = CircuitState.StateHalfOpen → cb.successCount = 0 →
      cb.halfOpenRequests < 4294967296 → 1 ≤ cb.halfOpenRequests →
      times.length = cb.halfOpenRequests →
      (runCalls cb (times.map (fun t => (t, (none : Option String))))).state =
        CircuitState.StateClosed)
    ∧
    (∀ (cb : CircuitBreaker) (now : Nat) (e : String),
      cb.state = CircuitState.StateHalfOpen →
      cb.successCount < cb.halfOpenRequests →
      (Call cb now (some e)).2.2.state = CircuitState.StateOpen ∧
      (Call cb now (some e)).2.1 = true) := by
  refine ⟨?_, ?_, ?_, ?_, ?_⟩
  · intro fails cb hs hf hlt h1 hlen
    exact closed_fail_run fails cb hs (by omega) hlt
      (by intro h; rw [h] at hlen; simp at hlen; omega)
  · intro cb now opErr hs helapsed
    simp only [Call, beforeRequest, hs, Nat.not_lt.mpr helapsed, gt_iff_lt, if_neg,
      not_false_eq_true]
  · intro cb now opErr hs helapsed
    simp only [Call, beforeRequest, hs, gt_iff_lt, if_pos helapsed]
    rcases opErr with _ | e <;> simp
  · intro times cb hs hsc hlt h1 hlen
    exact halfopen_success_run times cb hs (by omega) hlt
      (by intro h; rw [h] at hlen; simp at hlen; omega)
  · intro cb now e hs hadm
    simp [Call, beforeRequest, hs, ge_iff_le, Nat.not_le.mpr hadm,
      afterRequest, onFailure]

/-- Witness for C1 at the concrete breaker `cbEx` (thresholds 2/10/2). -/
theorem C1_circuit_breaker_lifecycle_witness :
    (runCalls cbEx [(1, some "a"), (2, some "b")]).state = CircuitState.StateOpen ∧
    Call cbExOpen 5 (some "x") = (CallReturn.errCircuitOpen, false, cbExOpen) ∧
    ((beforeRequest cbExOpen 13).1 = none ∧
      (beforeRequest cbExOpen 13).2.state = CircuitState.StateHalfOpen ∧
      (beforeRequest cbExOpen 13).2.successCount = 0 ∧
      (Call cbExOpen 13 (some "y")).2.1 = true) ∧
    (runCalls cbExHalf [(20, none), (21, none)]).state = CircuitState.StateClosed ∧
    ((Call cbExHalf 20 (some "z")).2.2.state = CircuitState.StateOpen ∧
      (Call cbExHalf 20 (some "z")).2.1 = true) :=
  ⟨C1_circuit_breaker_lifecycle.1 [(1, "a"), (2, "b")] cbEx (by decide) (by decide)
      (by decide) (by decide) (by decide),
   C1_circuit_breaker_lifecycle.2.1 cbExOpen 5 (some "x") (by decide) (by decide),
   C1_circuit_breaker_lifecycle.2.2.1 cbExOpen 13 (some "y") (by decide) (by decide),
   C1_circuit_breaker_lifecycle.2.2.2.1 [20, 21] cbExHalf (by decide) (by decide)
      (by decide) (by decide) (by decide),
   C1_circuit_breaker_lifecycle.2.2.2.2 cbExHalf 20 "z" (by decide) (by decide)⟩

/-- C2 counterexample: `Reset` is a circuit-breaker operation, and applied to
an Open breaker it changes the state Open→Closed, which is not one of the
four listed transitions. -/
theorem C2_counterexample_reset :
    cbExOpen.state = CircuitState.StateOpen ∧
    (Reset cbExOpen).state = CircuitState.StateClosed ∧
    cbExOpen.state ≠ (Reset cbExOpen).state ∧
    ¬ listedTransition cbExOpen.state (Reset cbExOpen).state := by
  decide

/-- C2 amended: during a `Call`, the admission step changes the state only
Open→HalfOpen when the elapsed time exceeds `resetTimeout`, and the outcome
step changes it only Closed→Open when the incremented failure counter reaches
`maxFailures`, HalfOpen→Open on a failure, or HalfOpen→Closed when the
incremented probe counter reaches `halfOpenRequests`; the manual `Reset`
operation additionally forces the state to Closed from any state. -/
theorem C2_transitions_amended :
    (∀ (cb : CircuitBreaker) (now : Nat),
      (beforeRequest cb now).2.state ≠ cb.state →
      (cb.state = CircuitState.StateOpen ∧
        (beforeRequest cb now).2.state = CircuitState.StateHalfOpen ∧
        cb.resetTimeout < now - cb.lastFailureTime))
    ∧
    (∀ (cb : CircuitBreaker) (now : Nat) (failed : Bool),
      (afterRequest cb now failed).state ≠ cb.state →
      ((cb.state = CircuitState.StateClosed ∧
          (afterRequest cb now failed).state = CircuitState.StateOpen ∧
          failed = true ∧ cb.maxFailures ≤ u32 (cb.failures + 1)) ∨
        (cb.state = CircuitState.StateHalfOpen ∧
          (afterRequest cb now failed).state = CircuitState.StateOpen ∧
          failed = true) ∨
        (cb.state = CircuitState.StateHalfOpen ∧
          (afterRequest cb now failed).state = CircuitState.StateClosed ∧
          failed = false ∧ cb.halfOpenRequests ≤ u32 (cb.successCount + 1))))
    ∧
    (∀ cb : CircuitBreaker, (Reset cb).state = CircuitState.StateClosed) := by
  refine ⟨?_, ?_, fun cb => rfl⟩
  · intro cb now hne
    rcases hstate : cb.state with _ | _ | _
    · simp only [beforeRequest, hstate] at hne
      exact absurd rfl hne
    · by_cases hc : cb.resetTimeout < now - cb.lastFailureTime
      · exact ⟨rfl, by simp [beforeRequest, hstate, hc], hc⟩
      · simp only [beforeRequest, hstate, gt_iff_lt, if_neg hc] at hne
        exact absurd rfl hne
    · by_cases hc : cb.halfOpenRequests ≤ cb.successCount
      · simp only [beforeRequest, hstate, ge_iff_le, if_pos hc] at hne
        exact absurd rfl hne
      · simp only [beforeRequest, hstate, ge_iff_le, if_neg hc] at hne
        exact absurd rfl hne
  · intro cb now failed hne
    cases failed
    · have hr : afterRequest cb now false = onSuccess cb := rfl
      rw [hr] at hne ⊢
      rcases hstate : cb.state with _ | _ | _
      · simp only [onSuccess, hstate] at hne
        exact absurd rfl hne
      · simp only [onSuccess, hstate] at hne
        exact absurd rfl hne
      · by_cases hc : cb.halfOpenRequests ≤ u32 (cb.successCount + 1)
        · exact Or.inr (Or.inr ⟨rfl, by simp [onSuccess, hstate, hc], rfl, hc⟩)
        · simp only [onSuccess, hstate, ge_iff_le, if_neg hc] at hne
          exact absurd rfl hne
    · have hr : afterRequest cb now true = onFailure cb now := rfl
      rw [hr] at hne ⊢
      rcases hstate : cb.state with _ | _ | _
      · by_cases hc : cb.maxFailures ≤ u32 (cb.failures + 1)
        · exact Or.inl ⟨rfl, by simp [onFailure, hstate, hc], rfl, hc⟩
        · simp only [onFailure, hstate, ge_iff_le, if_neg hc] at hne
          exact absurd rfl hne
      · simp only [onFailure, hstate] at hne
        exact absurd rfl hne
      · exact Or.inr (Or.inl ⟨rfl, by simp [onFailure, hstate], rfl⟩)

/-- Witness for the amended C2 at concrete breakers. -/
theorem C2_transitions_amended_witness :
    (cbExOpen.state = CircuitState.StateOpen ∧
      (beforeRequest cbExOpen 13).2.state = CircuitState.StateHalfOpen ∧
      cbExOpen.resetTimeout < 13 - cbExOpen.lastFailureTime) ∧
    (Reset cbEx).state = CircuitState.StateClosed :=
  ⟨C2_transitions_amended.1 cbExOpen 13 (by decide),
   C2_transitions_amended.2.2 cbEx⟩

/-- C10: `Call` is transparent for admitted operations: whenever admission
succeeds, the wrapped operation is invoked and `Call` returns exactly the
operation's own result (nil on success, its own error on failure). -/
theorem C10_call_transparent (cb : CircuitBreaker) (now : Nat) (opErr : Option String)
    (hadm : (beforeRequest cb now).1 = none) :
    (Call cb now opErr).2.1 = true ∧
    (Call cb now opErr).1 =
      (match opErr with
        | some e => CallReturn.opError e
        | none => CallReturn.ok) := by
  unfold Call
  rcases hb : beforeRequest cb now with ⟨err, cb1⟩
  rw [hb] at hadm
  simp only at hadm
  subst hadm
  rcases opErr with _ | e <;> simp

/-- Witness for C10 at a Closed breaker and a failing operation. -/
theorem C10_call_transparent_witness :
    (Call cbEx 0 (some "boom")).2.1 = true ∧
    (Call cbEx 0 (some "boom")).1 = CallReturn.opError "boom" :=
  C10_call_transparent cbEx 0 (some "boom") (by decide)

/-! ## Route table (Go: `internal/router/route.go`, `service_router.go`) -/

/-- A routing rule as declared in the YAML route table (`Route` struct). -/
structure Route where
  Name : String
  Path : String
  Method : String
  Service : String
  GRPCService : String
  GRPCMethod : String
  AuthRequired : Bool
deriving DecidableEq, Repr

/-- `calculateSpecificity` from `service_router.go`: three independent
`strings.Contains` checks add 1000 (no variable and no wildcard), 500
(contains a variable brace) and 100 (contains a wildcard), then the byte
length of the path and 50 for an explicitly declared method.
`strings.Contains(path, "\x7b")` on a one-byte needle is modelled as
character membership. -/
def calculateSpecificity (route : Route) : Nat :=
  (if ¬ route.Path.data.contains '\x7b' ∧ ¬ route.Path.data.contains '*'
    then 1000 else 0) +
  (if route.Path.data.contains '\x7b' then 500 else 0) +
  (if route.Path.data.contains '*' then 100 else 0) +
  route.Path.utf8ByteSize +
  (if route.Method ≠ "" then 50 else 0)

/-- Modelled from the spec's words, for comparison with the source: mutually
exclusive bases — 1000 if the pattern has neither variables nor a wildcard,
else 500 if it has variables, else 100 — plus path length, plus 50 for an
explicit method. -/
def specificityFromSpec (route : Route) : Nat :=
  (if ¬ route.Path.data.contains '\x7b' ∧ ¬ route.Path.data.contains '*' then 1000
    else if route.Path.data.contains '\x7b' then 500
    else 100) +
  route.Path.utf8ByteSize +
  (if route.Method ≠ "" then 50 else 0)

/-- A route whose path pattern contains both a variable and a wildcard. -/
def routeBothEx : Route :=
  { Name := "both", Path := "/a/\x7bid\x7d/*", Method := "",
    Service := "svc", GRPCService := "Svc", GRPCMethod := "M",
    AuthRequired := false }

/-- C3 counterexample: for a pattern containing both a variable and a
wildcard the code's score is 609 (base 500 + 100 are added together), not
the 509 the claim's mutually-exclusive bases would give. -/
theorem C3_counterexample_both_bases :
    calculateSpecificity routeBothEx = 609 ∧
    specificityFromSpec routeBothEx = 509 ∧
    calculateSpecificity routeBothEx ≠ specificityFromSpec routeBothEx := by
  decide

/-- C3 amended: the code's specificity equals the spec's mutually-exclusive
score, plus an extra 100 exactly when the pattern contains both a variable
and a wildcard (the variable and wildcard bonuses are additive, not
exclusive). -/
theorem C3_specificity_amended (route : Route) :
    calculateSpecificity route =
      specificityFromSpec route +
        (if route.Path.data.contains '\x7b' ∧ route.Path.data.contains '*'
          then 100 else 0) := by
  unfold calculateSpecificity specificityFromSpec
  by_cases h1 : '\x7b' ∈ route.Path.data <;>
    by_cases h2 : '*' ∈ route.Path.data <;>
      simp [h1, h2] <;> omega

/-! ## Proxy error paths (Go: `HandleRequest`, `handleGRPCError`, `sendError`) -/

/-- The JSON error envelope written by `sendError`: HTTP status plus the
`"code"` and `"error"` fields. -/
structure ErrorResponse where
  status : Nat
  code : String
  error : String
deriving DecidableEq, Repr

/-- The possible failures of breaker-guarded connection acquisition:
the breaker's two sentinel errors, or whatever error `GetConnection`
returned. -/
inductive AcquireError where
  | errCircuitOpen
  | errTooManyRequests
  | getConnectionError (msg : String)
deriving DecidableEq, Repr

/-- The acquisition-failure branch of `HandleRequest` (identical in both
proxy implementations): `err == ErrCircuitOpen` gives 503
`CIRCUIT_BREAKER_OPEN`; every other acquisition error gives 503
`SERVICE_UNAVAILABLE`. -/
def handleAcquireFailure (serviceName : String) : AcquireError → ErrorResponse
  | AcquireError.errCircuitOpen =>
      ⟨503, "CIRCUIT_BREAKER_OPEN",
        "Service " ++ serviceName ++ " is temporarily unavailable (circuit breaker open)"⟩
  | _ => ⟨503, "SERVICE_UNAVAILABLE", "Service " ++ serviceName ++ " is unavailable"⟩

/-- C4 counterexample: a `TooManyProbes` (`ErrTooManyRequests`) rejection is
mapped to `SERVICE_UNAVAILABLE`, not to `CIRCUIT_BREAKER_OPEN` as the claim
states. -/
theorem C4_counterexample_too_many_probes :
    (handleAcquireFailure "svc" AcquireError.errTooManyRequests).status = 503 ∧
    (handleAcquireFailure "svc" AcquireError.errTooManyRequests).code = "SERVICE_UNAVAILABLE" ∧
    (handleAcquireFailure "svc" AcquireError.errTooManyRequests).code ≠ "CIRCUIT_BREAKER_OPEN" := by
  decide

/-- C4 amended: every acquisition failure responds 503; the code is
`CIRCUIT_BREAKER_OPEN` only for the `CircuitOpen` rejection, and
`SERVICE_UNAVAILABLE` for `TooManyProbes` and every other acquisition
failure. -/
theorem C4_acquire_failure_mapping (serviceName : String) (e : AcquireError) :
    (handleAcquireFailure serviceName e).status = 503 ∧
    (handleAcquireFailure serviceName AcquireError.errCircuitOpen).code =
      "CIRCUIT_BREAKER_OPEN" ∧
    (e ≠ AcquireError.errCircuitOpen →
      (handleAcquireFailure serviceName e).code = "SERVICE_UNAVAILABLE") := by
  cases e <;> simp [handleAcquireFailure]

/-- Witness for the amended C4 at a concrete non-`CircuitOpen` failure. -/
theorem C4_acquire_failure_mapping_witness :
    (handleAcquireFailure "svc" (AcquireError.getConnectionError "dial refused")).status = 503 ∧
    (handleAcquireFailure "svc" AcquireError.errCircuitOpen).code = "CIRCUIT_BREAKER_OPEN" ∧
    ((AcquireError.getConnectionError "dial refused") ≠ AcquireError.errCircuitOpen →
      (handleAcquireFailure "svc" (AcquireError.getConnectionError "dial refused")).code =
        "SERVICE_UNAVAILABLE") :=
  C4_acquire_failure_mapping "svc" (AcquireError.getConnectionError "dial refused")

/-- `findInString` from the proxy package: scan every start offset. -/
def findInString (s substr : List Char) : Bool :=
  (List.range (s.length - substr.length + 1)).any
    (fun i => (s.drop i).take substr.length == substr)

/-- The proxy package's `contains` helper (exact substring containment via
length guard, equality, prefix, suffix and the scan). -/
def contains_go (s substr : String) : Bool :=
  decide (substr.data.length ≤ s.data.length) &&
    (s == substr ||
      (decide (substr.data.length < s.data.length) &&
        (substr.data.isPrefixOf s.data ||
          ((s.data.drop (s.data.length - substr.data.length)) == substr.data) ||
          findInString s.data substr.data)))

/-- `handleGRPCError`: picks an HTTP status and stable code by substring
matching on the backend error's text, and passes `message := err.Error()`
through to `sendError`'s `"error"` field unchanged. -/
def handleGRPCError (message : String) : ErrorResponse :=
  if contains_go message "NotFound" then ⟨404, "NOT_FOUND", message⟩
  else if contains_go message "AlreadyExists" then ⟨409, "ALREADY_EXISTS", message⟩
  else if contains_go message "PermissionDenied" then ⟨403, "PERMISSION_DENIED", message⟩
  else if contains_go message "Unauthenticated" then ⟨401, "UNAUTHENTICATED", message⟩
  else if contains_go message "InvalidArgument" then ⟨400, "INVALID_ARGUMENT", message⟩
  else if contains_go message "Unavailable" then ⟨503, "SERVICE_UNAVAILABLE", message⟩
  else if contains_go message "DeadlineExceeded" then ⟨504, "TIMEOUT", message⟩
  else ⟨500, "INTERNAL_ERROR", message⟩

/-! ## Path-pattern compilation (Go: `Route.CompilePathPattern`)

The Go code builds a regex string (variable extraction with
`\x7b([^\x7d]+)\x7d`, wildcard placeholder substitution, `regexp.QuoteMeta`,
placeholder/variable replacement, anchoring) and the only failure point is
`regexp.Compile` on the result.  `regexp.Compile` is standard-library code,
so its success is modelled by `regexpValid`, a recursive-descent syntax
check for the dialect the pipeline emits (escapes, character classes,
groups, alternation, the `*`/`+`/`?` quantifiers; counted repetitions never
arise and are treated as literal braces). -/

/-- The characters `regexp.QuoteMeta` escapes. -/
def isSpecialChar (c : Char) : Bool :=
  c = '\\' || c = '.' || c = '+' || c = '*' || c = '?' || c = '(' || c = ')' ||
  c = '|' || c = '[' || c = ']' || c = '\x7b' || c = '\x7d' || c = '^' || c = '$'

/-- `regexp.QuoteMeta`: escape every special character with a backslash. -/
def quoteMeta (s : List Char) : List Char :=
  (s.map (fun c => if isSpecialChar c then ['\\', c] else [c])).flatten

/-- Scanner for all leftmost non-overlapping matches of the variable pattern
`\x7b([^\x7d]+)\x7d` (an opening brace, one or more non-closing-brace
characters, a closing brace), returning the captured names.  `fuel` is a
structural-recursion bound; it is always called with `fuel ≥ s.length`, and
every recursive call shortens the input, so the `fuel = 0` case is never
reached. -/
def extractVarsAux : Nat → List Char → List (List Char)
  | 0, _ => []
  | _ + 1, [] => []
  | fuel + 1, c :: rest =>
      if c = '\x7b' then
        let run := rest.takeWhile (fun d => d ≠ '\x7d')
        if run ≠ [] ∧ (rest.drop run.length).head? = some '\x7d' then
          run :: extractVarsAux fuel ((rest.drop run.length).tail)
        else
          extractVarsAux fuel rest
      else
        extractVarsAux fuel rest

/-- The model of `varPattern.FindAllStringSubmatch` on the raw pattern. -/
def extractVars (s : List Char) : List (List Char) :=
  extractVarsAux s.length s

/-- Scanner replacing every leftmost match of the quoted variable pattern
`\\\x7b[^\x7d]+\\\x7d` — an escaped opening brace, one or more
non-closing-brace characters ending with the backslash of the escaped
closing brace, then the closing brace — by the capture group `([^/]+)`.
`fuel ≥ s.length` always holds at every call. -/
def replaceVarsAux : Nat → List Char → List Char
  | 0, s => s
  | _ + 1, [] => []
  | fuel + 1, c :: rest =>
      if c = '\\' then
        match rest with
        | [] => ['\\']
        | c2 :: rest2 =>
            if c2 = '\x7b' then
              let run := rest2.takeWhile (fun d => d ≠ '\x7d')
              if 2 ≤ run.length ∧ run.getLast? = some '\\' ∧
                  (rest2.drop run.length).head? = some '\x7d' then
                '(' :: '[' :: '^' :: '/' :: ']' :: '+' :: ')' ::
                  replaceVarsAux fuel ((rest2.drop run.length).tail)
              else
                '\\' :: replaceVarsAux fuel (c2 :: rest2)
            else
              '\\' :: replaceVarsAux fuel (c2 :: rest2)
      else
        c :: replaceVarsAux fuel rest

/-- The model of the `ReplaceAllString` step on the quoted pattern. -/
def replaceVars (s : List Char) : List Char :=
  replaceVarsAux s.length s

/-- `strings.ReplaceAll` for a nonempty literal pattern: leftmost
non-overlapping replacement (the empty-pattern case never arises in the
route compiler).  `fuel ≥ s.length` always holds at every call. -/
def replaceAllLitAux (pat rep : List Char) : Nat → List Char → List Char
  | 0, s => s
  | _ + 1, [] => []
  | fuel + 1, c :: rest =>
      if pat ≠ [] ∧ pat.isPrefixOf (c :: rest) then
        rep ++ replaceAllLitAux pat rep fuel ((c :: rest).drop pat.length)
      else
        c :: replaceAllLitAux pat rep fuel rest

/-- The model of `strings.ReplaceAll s pat rep`. -/
def replaceAllLit (pat rep s : List Char) : List Char :=
  replaceAllLitAux pat rep s.length s

/-- Consume a single quantifier (with an optional lazy `?`) after an atom. -/
def skipQuant (s : List Char) : List Char :=
  match s with
  | [] => []
  | c :: rest =>
      if c = '*' ∨ c = '+' ∨ c = '?' then
        match rest with
        | '?' :: rest2 => rest2
        | _ => rest
      else
        c :: rest

/-- Consume the members of a character class up to its closing `]`. -/
def classChars : List Char → Option (List Char)
  | [] => none
  | ']' :: rest => some rest
  | '\\' :: [] => none
  | '\\' :: _ :: rest => classChars rest
  | _ :: rest => classChars rest

/-- Parse a character class body (input starts after `[`): an optional `^`,
then at least one member (a leading `]` is a literal member), then `]`. -/
def parseClass (s : List Char) : Option (List Char) :=
  let s1 := match s with
    | '^' :: rest => rest
    | _ => s
  match s1 with
  | ']' :: rest => classChars rest
  | _ => classChars s1

/-- The recursive-descent regex parser.  In sequence mode (`alt = false`) it
parses a concatenation of quantified atoms, stopping at the end of input,
`)` or `|`, and rejecting dangling quantifiers, trailing backslashes, bad
classes and bad groups; in alternation mode (`alt = true`) it parses
`|`-separated sequences.  `fuel` bounds the recursion; parsing a well-formed
input consumes at most two units of fuel per input character. -/
def reP : Nat → Bool → List Char → Option (List Char)
  | 0, _, _ => none
  | fuel + 1, true, s =>
      match reP fuel false s with
      | some ('|' :: r2) => reP fuel true r2
      | r => r
  | _ + 1, false, [] => some []
  | fuel + 1, false, c :: rest =>
      if c = ')' ∨ c = '|' then some (c :: rest)
      else if c = '*' ∨ c = '+' ∨ c = '?' then none
      else if c = '\\' then
        match rest with
        | [] => none
        | _ :: rest2 => reP fuel false (skipQuant rest2)
      else if c = '[' then
        match parseClass rest with
        | some r => reP fuel false (skipQuant r)
        | none => none
      else if c = '(' then
        match reP fuel true rest with
        | some (')' :: r2) => reP fuel false (skipQuant r2)
        | _ => none
      else
        reP fuel false (skipQuant rest)

/-- Modelled from the spec: `regexp.Compile` (standard library, outside this
repository) succeeds exactly on syntactically well-formed patterns; checked
here by full recursive-descent parsing of the emitted dialect (counted
repetitions never arise from the route compiler and are treated as literal
braces). -/
def regexpValid (s : List Char) : Bool :=
  match reP (2 * s.length + 2) true s with
  | some [] => true
  | _ => false

/-- The literal placeholder the route compiler substitutes for `*`. -/
def wildcardPlaceholder : List Char := "WILDCARD_PLACEHOLDER".data

/-- `CompilePathPattern`: extract variable names, replace wildcards by the
placeholder, quote metacharacters, replace quoted variable patterns by
`([^/]+)`, replace the placeholder by `.*`, anchor with `^`/`$`, and fail
only if the resulting regex does not compile. -/
def CompilePathPattern (path : String) : Except String (List String × List Char) :=
  let pathVars := (extractVars path.data).map (fun cs => String.mk cs)
  let step1 := replaceAllLit ['*'] wildcardPlaceholder path.data
  let step2 := quoteMeta step1
  let step3 := replaceVars step2
  let step4 := replaceAllLit wildcardPlaceholder ['.', '*'] step3
  let regexPattern := '^' :: (step4 ++ ['$'])
  if regexpValid regexPattern then
    Except.ok (pathVars, regexPattern)
  else
    Except.error ("failed to compile path pattern " ++ path)

/-- The pattern-character family used by the amended C8 statement: lowercase
letters, digits, `/` and the opening brace. -/
def goodChar (c : Char) : Bool :=
  c.isLower || c.isDigit || c = '/' || c = '\x7b'

theorem goodChar_facts (c : Char) (h : goodChar c = true) :
    ¬(c = ')' ∨ c = '|') ∧ ¬(c = '*' ∨ c = '+' ∨ c = '?') ∧ ¬(c = '\\') ∧
      ¬(c = '[') ∧ ¬(c = '(') := by
  refine ⟨?_, ?_, ?_, ?_, ?_⟩
  · rintro (rfl | rfl) <;> exact absurd h (by decide)
  · rintro (rfl | rfl | rfl) <;> exact absurd h (by decide)
  · rintro rfl; exact absurd h (by decide)
  · rintro rfl; exact absurd h (by decide)
  · rintro rfl; exact absurd h (by decide)

theorem extractVarsAux_eq_nil :
    ∀ (fuel : Nat) (s : List Char), (∀ c ∈ s, c ≠ '\x7d') →
      extractVarsAux fuel s = []
  | 0, _, _ => rfl
  | _ + 1, [], _ => rfl
  | fuel + 1, c :: rest, h => by
      have hrest : ∀ d ∈ rest, d ≠ '\x7d' := fun d hd => h d (List.mem_cons_of_mem _ hd)
      have hcond : ¬(rest.takeWhile (fun d => d ≠ '\x7d') ≠ [] ∧
          (rest.drop (rest.takeWhile (fun d => d ≠ '\x7d')).length).head? =
            some '\x7d') := by
        rintro ⟨-, hhead⟩
        exact hrest _ (List.mem_of_mem_drop (List.mem_of_mem_head? hhead)) rfl
      by_cases hc : c = '\x7b'
      · simp only [extractVarsAux, if_pos hc, if_neg hcond]
        exact extractVarsAux_eq_nil fuel rest hrest
      · simp only [extractVarsAux, if_neg hc]
        exact extractVarsAux_eq_nil fuel rest hrest

theorem extractVars_eq_nil (s : List Char) (h : ∀ c ∈ s, c ≠ '\x7d') :
    extractVars s = [] :=
  extractVarsAux_eq_nil s.length s h

theorem quoteMeta_cons (c : Char) (s : List Char) :
    quoteMeta (c :: s) =
      (if isSpecialChar c then ['\\', c] else [c]) ++ quoteMeta s := by
  simp [quoteMeta]

theorem mem_quoteMeta {c : Char} {s : List Char} (h : c ∈ quoteMeta s) :
    c ∈ s ∨ c = '\\' := by
  unfold quoteMeta at h
  rw [List.mem_flatten] at h
  obtain ⟨l, hl, hcl⟩ := h
  rw [List.mem_map] at hl
  obtain ⟨d, hd, rfl⟩ := hl
  by_cases hs : isSpecialChar d
  · rw [if_pos hs] at hcl
    simp only [List.mem_cons, List.mem_singleton, List.not_mem_nil, or_false] at hcl
    rcases hcl with rfl | rfl
    · exact Or.inr rfl
    · exact Or.inl hd
  · rw [if_neg hs] at hcl
    simp only [List.mem_singleton] at hcl
    subst hcl
    exact Or.inl hd

theorem length_le_length_quoteMeta (s : List Char) :
    s.length ≤ (quoteMeta s).length := by
  induction s with
  | nil => simp [quoteMeta]
  | cons c s ih =>
      rw [quoteMeta_cons]
      by_cases hs : isSpecialChar c <;> simp [hs] <;> omega

theorem replaceVarsAux_eq_self :
    ∀ (fuel : Nat) (s : List Char), (∀ c ∈ s, c ≠ '\x7d') →
      replaceVarsAux fuel s = s
  | 0, _, _ => rfl
  | _ + 1, [], _ => rfl
  | fuel + 1, c :: rest, h => by
      have hrest : ∀ d ∈ rest, d ≠ '\x7d' := fun d hd => h d (List.mem_cons_of_mem _ hd)
      by_cases hc : c = '\\'
      · subst hc
        rcases rest with _ | ⟨c2, rest2⟩
        · rfl
        · have hrest2 : ∀ d ∈ rest2, d ≠ '\x7d' := fun d hd =>
            hrest d (List.mem_cons_of_mem _ hd)
          by_cases hc2 : c2 = '\x7b'
          · have hcond : ¬(2 ≤ (rest2.takeWhile (fun d => d ≠ '\x7d')).length ∧
                (rest2.takeWhile (fun d => d ≠ '\x7d')).getLast? = some '\\' ∧
                (rest2.drop (rest2.takeWhile (fun d => d ≠ '\x7d')).length).head? =
                  some '\x7d') := by
              rintro ⟨-, -, hhead⟩
              exact hrest2 _ (List.mem_of_mem_drop (List.mem_of_mem_head? hhead)) rfl
            simp only [replaceVarsAux, if_pos rfl, if_pos hc2, if_neg hcond]
            rw [replaceVarsAux_eq_self fuel (c2 :: rest2) hrest]
            simp
          · simp only [replaceVarsAux, if_pos rfl, if_neg hc2]
            rw [replaceVarsAux_eq_self fuel (c2 :: rest2) hrest]
            simp
      · simp only [replaceVarsAux, if_neg hc]
        rw [replaceVarsAux_eq_self fuel rest hrest]

theorem replaceVars_eq_self (s : List Char) (h : ∀ c ∈ s, c ≠ '\x7d') :
    replaceVars s = s :=
  replaceVarsAux_eq_self s.length s h

theorem replaceAllLitAux_eq_self (pat rep : List Char) (c0 : Char)
    (hc0 : pat.head? = some c0) :
    ∀ (fuel : Nat) (s : List Char), c0 ∉ s → replaceAllLitAux pat rep fuel s = s
  | 0, _, _ => rfl
  | _ + 1, [], _ => rfl
  | fuel + 1, c :: rest, h => by
      have hnp : ¬(pat ≠ [] ∧ pat.isPrefixOf (c :: rest) = true) := by
        rintro ⟨hne, hpre⟩
        rcases hpat : pat with _ | ⟨p0, pat1⟩
        · exact hne hpat
        · rw [hpat] at hc0 hpre
          simp only [List.head?_cons, Option.some.injEq] at hc0
          have hpfx := List.isPrefixOf_iff_prefix.mp hpre
          have hhd := (List.cons_prefix_cons.mp hpfx).1
          exact h (hc0 ▸ hhd ▸ List.mem_cons_self _ _)
      simp only [replaceAllLitAux, if_neg hnp]
      have hr : c0 ∉ rest := fun hm => h (List.mem_cons_of_mem _ hm)
      rw [replaceAllLitAux_eq_self pat rep c0 hc0 fuel rest hr]

theorem replaceAllLit_eq_self (pat rep : List Char) (c0 : Char)
    (hc0 : pat.head? = some c0) (s : List Char) (h : c0 ∉ s) :
    replaceAllLit pat rep s = s :=
  replaceAllLitAux_eq_self pat rep c0 hc0 s.length s h

theorem skipQuant_cons_of_ne (c : Char) (rest : List Char)
    (h : ¬(c = '*' ∨ c = '+' ∨ c = '?')) : skipQuant (c :: rest) = c :: rest := by
  simp [skipQuant, h]

theorem skipQuant_quoteMeta_append (p rest : List Char)
    (hp : ∀ c ∈ p, goodChar c = true) (hrest : skipQuant rest = rest) :
    skipQuant (quoteMeta p ++ rest) = quoteMeta p ++ rest := by
  rcases p with _ | ⟨c, p1⟩
  · simpa [quoteMeta] using hrest
  · rw [quoteMeta_cons]
    by_cases hs : isSpecialChar c
    · rw [if_pos hs]
      simp only [List.cons_append, List.nil_append]
      exact skipQuant_cons_of_ne '\\' _ (by decide)
    · rw [if_neg hs]
      simp only [List.cons_append, List.nil_append]
      exact skipQuant_cons_of_ne c _ (goodChar_facts c (hp c (by simp))).2.1

theorem reP_cons_good (k : Nat) (c : Char) (X : List Char) (h : goodChar c = true) :
    reP (k + 1) false (c :: X) = reP k false (skipQuant X) := by
  obtain ⟨h1, h2, h3, h4, h5⟩ := goodChar_facts c h
  simp only [reP, if_neg h1, if_neg h2, if_neg h3, if_neg h4, if_neg h5]

theorem reP_caret (k : Nat) (X : List Char) :
    reP (k + 1) false ('^' :: X) = reP k false (skipQuant X) := rfl

theorem reP_escape (k : Nat) (c : Char) (X : List Char) :
    reP (k + 1) false ('\\' :: c :: X) = reP k false (skipQuant X) := rfl

theorem reP_quote (p : List Char) : ∀ (rest : List Char) (fuel : Nat),
    (∀ c ∈ p, goodChar c = true) → skipQuant rest = rest →
    ∃ f2, fuel ≤ f2 ∧
      reP (p.length + fuel) false (quoteMeta p ++ rest) = reP f2 false rest := by
  induction p with
  | nil =>
      intro rest fuel hp hrest
      exact ⟨fuel, le_rfl, by simp [quoteMeta]⟩
  | cons c p1 ih =>
      intro rest fuel hp hrest
      have hc : goodChar c = true := hp c (by simp)
      have hp1 : ∀ d ∈ p1, goodChar d = true := fun d hd => hp d (by simp [hd])
      have hskip : skipQuant (quoteMeta p1 ++ rest) = quoteMeta p1 ++ rest :=
        skipQuant_quoteMeta_append p1 rest hp1 hrest
      obtain ⟨f2, hle, heq⟩ := ih rest fuel hp1 hrest
      refine ⟨f2, hle, ?_⟩
      rw [quoteMeta_cons]
      have harith : (c :: p1).length + fuel = (p1.length + fuel) + 1 := by
        simp only [List.length_cons]
        omega
      by_cases hs : isSpecialChar c
      · rw [if_pos hs]
        simp only [List.cons_append, List.nil_append]
        rw [harith, reP_escape, hskip, heq]
      · rw [if_neg hs]
        simp only [List.cons_append, List.nil_append]
        rw [harith, reP_cons_good _ c _ hc, hskip, heq]

theorem reP_alt_step (k : Nat) (s : List Char) :
    reP (k + 1) true s =
      (match reP k false s with
        | some ('|' :: r2) => reP k true r2
        | r => r) := rfl

theorem reP_dollar (k : Nat) (hk : 2 ≤ k) : reP k false ['$'] = some [] := by
  rcases k with _ | _ | k
  · omega
  · omega
  · rfl

theorem regexpValid_quote (p : List Char) (hp : ∀ c ∈ p, goodChar c = true) :
    regexpValid ('^' :: (quoteMeta p ++ ['$'])) = true := by
  have hq : skipQuant (quoteMeta p ++ ['$']) = quoteMeta p ++ ['$'] :=
    skipQuant_quoteMeta_append p ['$'] hp rfl
  have hlen := length_le_length_quoteMeta p
  obtain ⟨f2, hf2, heq⟩ :=
    reP_quote p ['$'] (2 * ((quoteMeta p).length + 2) - p.length) hp rfl
  have hge2 : 2 ≤ 2 * ((quoteMeta p).length + 2) - p.length := by omega
  have hseq : reP (2 * ((quoteMeta p).length + 2) + 1) false
      ('^' :: (quoteMeta p ++ ['$'])) = some [] := by
    rw [reP_caret (2 * ((quoteMeta p).length + 2)) (quoteMeta p ++ ['$']), hq,
      show 2 * ((quoteMeta p).length + 2) =
        p.length + (2 * ((quoteMeta p).length + 2) - p.length) from by omega,
      heq]
    exact reP_dollar f2 (hge2.trans hf2)
  have halt : reP (2 * ((quoteMeta p).length + 2) + 2) true
      ('^' :: (quoteMeta p ++ ['$'])) = some [] := by
    rw [show 2 * ((quoteMeta p).length + 2) + 2 =
      (2 * ((quoteMeta p).length + 2) + 1) + 1 from rfl,
      reP_alt_step, hseq]
  have hlist : ('^' :: (quoteMeta p ++ ['$'])).length = (quoteMeta p).length + 2 := by
    simp
  unfold regexpValid
  rw [hlist, halt]

/-- C8 counterexample: the pattern `/orders/\x7bid` has an opening brace with
no matching closing brace, yet `CompilePathPattern` succeeds silently — it
extracts no variable and produces the anchored regex `^/orders/\\\x7bid$`
matching the brace literally — instead of failing with a `PatternError`. -/
theorem C8_counterexample_unbalanced_brace :
    CompilePathPattern "/orders/\x7bid" =
      Except.ok ([], "^/orders/\\\x7bid$".data) := by
  rfl

/-- C8 amended: route compilation does not fail on unbalanced braces.  For
every pattern made of lowercase letters, digits, `/` and `\x7b` that
contains an unmatched opening brace (there is no closing brace at all),
`CompilePathPattern` succeeds, extracts no variables, and returns the
anchored quoted pattern, in which the brace is escaped and matched as a
literal character; compilation can only fail if the generated regex does
not compile, which does not happen here. -/
theorem C8_unbalanced_brace_compiles (p : String)
    (hchars : ∀ c ∈ p.data, goodChar c = true)
    (hbrace : '\x7b' ∈ p.data) :
    CompilePathPattern p = Except.ok ([], '^' :: (quoteMeta p.data ++ ['$'])) := by
  have hnorb : ∀ c ∈ p.data, c ≠ '\x7d' := by
    intro c hc
    have hg := hchars c hc
    rintro rfl
    exact absurd hg (by decide)
  have hvars : extractVars p.data = [] := extractVars_eq_nil _ hnorb
  have hnostar : '*' ∉ p.data := fun hm => absurd (hchars _ hm) (by decide)
  have h1 : replaceAllLit ['*'] wildcardPlaceholder p.data = p.data :=
    replaceAllLit_eq_self ['*'] wildcardPlaceholder '*' rfl p.data hnostar
  have hqm_norb : ∀ c ∈ quoteMeta p.data, c ≠ '\x7d' := by
    intro c hc
    rcases mem_quoteMeta hc with h | rfl
    · exact hnorb c h
    · decide
  have h3 : replaceVars (quoteMeta p.data) = quoteMeta p.data :=
    replaceVars_eq_self _ hqm_norb
  have hnoW : 'W' ∉ quoteMeta p.data := by
    intro hm
    rcases mem_quoteMeta hm with h | h
    · exact absurd (hchars _ h) (by decide)
    · exact absurd h (by decide)
  have h4 : replaceAllLit wildcardPlaceholder ['.', '*'] (quoteMeta p.data) =
      quoteMeta p.data :=
    replaceAllLit_eq_self wildcardPlaceholder ['.', '*'] 'W' rfl _ hnoW
  have h5 : regexpValid ('^' :: (quoteMeta p.data ++ ['$'])) = true :=
    regexpValid_quote p.data hchars
  simp only [CompilePathPattern, hvars, h1, h3, h4, h5, List.map_nil, if_true]

/-- Witness for the amended C8 at the concrete pattern `/api/\x7border`. -/
theorem C8_unbalanced_brace_compiles_witness :
    CompilePathPattern "/api/\x7border" =
      Except.ok ([], '^' :: (quoteMeta "/api/\x7border".data ++ ['$'])) :=
  C8_unbalanced_brace_compiles "/api/\x7border" (by decide) (by decide)


/-- A backend error text carrying an internal address, as such errors do. -/
def backendErrEx : String :=
  "rpc error: dial tcp 10.0.0.5:5432: connect: connection refused"

/-- C7 counterexample: the backend error's own text — here containing an
internal connection address — is placed verbatim in the response's
`"error"` field. -/
theorem C7_counterexample_verbatim_message :
    (handleGRPCError backendErrEx).error = backendErrEx ∧
    (handleGRPCError backendErrEx).code = "INTERNAL_ERROR" := by
  constructor
  · rfl
  · rfl

/-- C7 amended: the client-facing error response carries a mapped stable
code drawn from the fixed taxonomy, but the `"error"` field is always the
backend error's own text forwarded verbatim (no sanitisation). -/
theorem C7_grpc_error_mapping (message : String) :
    (handleGRPCError message).error = message ∧
    (handleGRPCError message).code ∈
      (["NOT_FOUND", "ALREADY_EXISTS", "PERMISSION_DENIED", "UNAUTHENTICATED",
        "INVALID_ARGUMENT", "SERVICE_UNAVAILABLE", "TIMEOUT",
        "INTERNAL_ERROR"] : List String) := by
  unfold handleGRPCError
  split_ifs <;> simp


/-! ## Auth middleware (Go: `internal/middleware/auth_middleware.go`)

`hashToken` calls `crypto/sha256.Sum256` and `hex.EncodeToString` from the
Go standard library; SHA-256 is embedded below directly from FIPS 180-4
(32-bit words as `Nat` reduced by `u32`). -/

/-- A validated user: `UserContext` with `userId` and `email`. -/
structure UserContext where
  UserID : String
  Email : String
deriving DecidableEq, Repr

/-- Right rotation of a 32-bit word. -/
def rotr32 (n x : Nat) : Nat := u32 ((x >>> n) ||| (x <<< (32 - n)))

/-- The running hash state: eight 32-bit words. -/
structure Words8 where
  w0 : Nat
  w1 : Nat
  w2 : Nat
  w3 : Nat
  w4 : Nat
  w5 : Nat
  w6 : Nat
  w7 : Nat
deriving DecidableEq, Repr

/-- The SHA-256 round constants (FIPS 180-4). -/
def sha256K : List Nat :=
  [1116352408, 1899447441, 3049323471, 3921009573, 961987163, 1508970993,
   2453635748, 2870763221, 3624381080, 310598401, 607225278, 1426881987,
   1925078388, 2162078206, 2614888103, 3248222580, 3835390401, 4022224774,
   264347078, 604807628, 770255983, 1249150122, 1555081692, 1996064986,
   2554220882, 2821834349, 2952996808, 3210313671, 3336571891, 3584528711,
   113926993, 338241895, 666307205, 773529912, 1294757372, 1396182291,
   1695183700, 1986661051, 2177026350, 2456956037, 2730485921, 2820302411,
   3259730800, 3345764771, 3516065817, 3600352804, 4094571909, 275423344,
   430227734, 506948616, 659060556, 883997877, 958139571, 1322822218,
   1537002063, 1747873779, 1955562222, 2024104815, 2227730452, 2361852424,
   2428436474, 2756734187, 3204031479, 3329325298]

/-- The SHA-256 initial hash value (FIPS 180-4). -/
def sha256Init : Words8 :=
  ⟨1779033703, 3144134277, 1013904242, 2773480762, 1359893119, 2600822924,
   528734635, 1541459225⟩

/-- One SHA-256 compression round on state `(a..h)` with a constant-word
pair. -/
def sha256Round (st : Words8) (kw : Nat × Nat) : Words8 :=
  let S1 := (rotr32 6 st.w4) ^^^ (rotr32 11 st.w4) ^^^ (rotr32 25 st.w4)
  let ch := (st.w4 &&& st.w5) ^^^ ((st.w4 ^^^ 4294967295) &&& st.w6)
  let temp1 := u32 (st.w7 + S1 + ch + kw.1 + kw.2)
  let S0 := (rotr32 2 st.w0) ^^^ (rotr32 13 st.w0) ^^^ (rotr32 22 st.w0)
  let maj := (st.w0 &&& st.w1) ^^^ (st.w0 &&& st.w2) ^^^ (st.w1 &&& st.w2)
  let temp2 := u32 (S0 + maj)
  ⟨u32 (temp1 + temp2), st.w0, st.w1, st.w2, u32 (st.w3 + temp1), st.w4, st.w5,
    st.w6⟩

/-- Extend a 16-word message schedule by `n` further words. -/
def extendSchedule : List Nat → Nat → List Nat
  | w, 0 => w
  | w, n + 1 =>
      let s0 :=
        (rotr32 7 (w.getD (w.length - 15) 0)) ^^^
          (rotr32 18 (w.getD (w.length - 15) 0)) ^^^
          ((w.getD (w.length - 15) 0) >>> 3)
      let s1 :=
        (rotr32 17 (w.getD (w.length - 2) 0)) ^^^
          (rotr32 19 (w.getD (w.length - 2) 0)) ^^^
          ((w.getD (w.length - 2) 0) >>> 10)
      extendSchedule
        (w ++ [u32 ((w.getD (w.length - 16) 0) + s0 + (w.getD (w.length - 7) 0) + s1)])
        n

/-- Pack bytes into 32-bit big-endian words. -/
def bytesToWords : List Nat → List Nat
  | b0 :: b1 :: b2 :: b3 :: rest =>
      (b0 * 16777216 + b1 * 65536 + b2 * 256 + b3) :: bytesToWords rest
  | _ => []

/-- Process one 64-byte block. -/
def sha256Block (H : Words8) (block : List Nat) : Words8 :=
  let w := extendSchedule (bytesToWords block) 48
  let st := (sha256K.zip w).foldl sha256Round H
  ⟨u32 (H.w0 + st.w0), u32 (H.w1 + st.w1), u32 (H.w2 + st.w2),
    u32 (H.w3 + st.w3), u32 (H.w4 + st.w4), u32 (H.w5 + st.w5),
    u32 (H.w6 + st.w6), u32 (H.w7 + st.w7)⟩

/-- The 64-bit big-endian byte encoding of the message bit length. -/
def be64 (n : Nat) : List Nat :=
  [(n >>> 56) % 256, (n >>> 48) % 256, (n >>> 40) % 256, (n >>> 32) % 256,
   (n >>> 24) % 256, (n >>> 16) % 256, (n >>> 8) % 256, n % 256]

/-- SHA-256 padding: a `0x80` byte, zeros to 56 mod 64, the bit length. -/
def sha256Pad (msg : List Nat) : List Nat :=
  msg ++ 128 :: List.replicate ((119 - msg.length % 64) % 64) 0 ++
    be64 (8 * msg.length)

/-- Split a byte list into 64-byte blocks (`fuel ≥ s.length` at every call). -/
def toBlocksAux : Nat → List Nat → List (List Nat)
  | 0, _ => []
  | _ + 1, [] => []
  | fuel + 1, l => l.take 64 :: toBlocksAux fuel (l.drop 64)

/-- The big-endian bytes of one 32-bit word. -/
def wordBytes (w : Nat) : List Nat :=
  [(w >>> 24) % 256, (w >>> 16) % 256, (w >>> 8) % 256, w % 256]

/-- The 32 digest bytes of a final hash state. -/
def words8Bytes (H : Words8) : List Nat :=
  wordBytes H.w0 ++ wordBytes H.w1 ++ wordBytes H.w2 ++ wordBytes H.w3 ++
    wordBytes H.w4 ++ wordBytes H.w5 ++ wordBytes H.w6 ++ wordBytes H.w7

/-- SHA-256 of a byte string (`crypto/sha256.Sum256`). -/
def sha256Bytes (msg : List Nat) : List Nat :=
  words8Bytes
    ((toBlocksAux (sha256Pad msg).length (sha256Pad msg)).foldl sha256Block
      sha256Init)

/-- The UTF-8 bytes of one character. -/
def charUtf8 (c : Char) : List Nat :=
  let n := c.toNat
  if n < 128 then [n]
  else if n < 2048 then [192 + n / 64, 128 + n % 64]
  else if n < 65536 then [224 + n / 4096, 128 + (n / 64) % 64, 128 + n % 64]
  else [240 + n / 262144, 128 + (n / 4096) % 64, 128 + (n / 64) % 64,
    128 + n % 64]

/-- The UTF-8 bytes of a string (Go's `[]byte(token)`). -/
def utf8Bytes (s : String) : List Nat := (s.data.map charUtf8).flatten

/-- A lowercase hexadecimal digit. -/
def hexDigit (n : Nat) : Char :=
  if n < 10 then Char.ofNat (48 + n) else Char.ofNat (87 + n)

/-- `hex.EncodeToString`: two lowercase hex digits per byte. -/
def hexEncodeChars (bytes : List Nat) : List Char :=
  (bytes.map (fun b => [hexDigit (b / 16), hexDigit (b % 16)])).flatten

/-- `hashToken`: the lowercase hex SHA-256 of the token's bytes. -/
def hashToken (token : String) : String :=
  String.mk (hexEncodeChars (sha256Bytes (utf8Bytes token)))

theorem length_words8Bytes (H : Words8) : (words8Bytes H).length = 32 := by
  simp [words8Bytes, wordBytes]

theorem length_sha256Bytes (msg : List Nat) : (sha256Bytes msg).length = 32 :=
  length_words8Bytes _

theorem length_hexEncodeChars (bytes : List Nat) :
    (hexEncodeChars bytes).length = 2 * bytes.length := by
  induction bytes with
  | nil => simp [hexEncodeChars]
  | cons b rest ih =>
      have hstep : hexEncodeChars (b :: rest) =
          [hexDigit (b / 16), hexDigit (b % 16)] ++ hexEncodeChars rest := by
        simp [hexEncodeChars]
      rw [hstep, List.length_append, ih, List.length_cons]
      simp
      omega

/-- The hash used as a cache key has a fixed length of 64 hex characters,
whatever the token. -/
theorem hashToken_length (token : String) : (hashToken token).length = 64 := by
  show (hexEncodeChars (sha256Bytes (utf8Bytes token))).length = 64
  rw [length_hexEncodeChars, length_sha256Bytes]


/-- `json.Marshal` of a `UserContext` (field tags `userId`, `email`; string
escaping elided — token claims do not depend on it).  The encoding is a
function of the user context alone. -/
def marshalUserContext (uc : UserContext) : String :=
  "\x7b\"userId\":\"" ++ uc.UserID ++ "\",\"email\":\"" ++ uc.Email ++ "\"\x7d"

/-- One cache write as issued by `saveToCache`: key, marshalled value and
TTL in nanoseconds. -/
structure CacheWrite where
  key : String
  value : String
  ttl : Nat
deriving DecidableEq, Repr

/-- The observable outcome of one `ValidateToken` call: its return value,
the cache writes it performed, and whether the user-service RPC was made. -/
structure ValidateResult where
  result : Except String UserContext
  writes : List CacheWrite
  rpcCalled : Bool
deriving Repr

/-- `ValidateToken`: hash the token, build the `token_valid:` cache key,
consult the cache when a redis client is configured (`cache` returns the
successfully read and unmarshalled entry, `none` covering a miss, a redis
error or an unmarshal failure, all of which fall through in the source);
on a hit return the cached context with no RPC; otherwise call the
user-service RPC (its behaviour is the value `rpc`); on RPC failure return
the error with no cache write; on success store the marshalled context
under the hash key with a 5-minute (300000000000 ns) TTL. -/
def ValidateToken (hasRedis : Bool) (cache : String → Option UserContext)
    (rpc : Except String UserContext) (token : String) : ValidateResult :=
  let cacheKey := "token_valid:" ++ hashToken token
  match (if hasRedis then cache cacheKey else none) with
  | some cachedUser => ⟨Except.ok cachedUser, [], false⟩
  | none =>
      match rpc with
      | Except.error e => ⟨Except.error e, [], true⟩
      | Except.ok userContext =>
          ⟨Except.ok userContext,
            if hasRedis then
              [⟨cacheKey, marshalUserContext userContext, 300000000000⟩]
            else [],
            true⟩

/-- C5: every cache write performed by `ValidateToken` stores, under the key
`token_valid:` followed by the 64-character hex SHA-256 of the token, the
JSON encoding of the RPC-derived user context (userId and email) alone; in
particular neither the key nor the value is built from the raw token other
than through the one-way hash. -/
theorem C5_cache_write_shape (hasRedis : Bool) (cache : String → Option UserContext)
    (rpc : Except String UserContext) (token : String) (w : CacheWrite)
    (hw : w ∈ (ValidateToken hasRedis cache rpc token).writes) :
    w.key = "token_valid:" ++ hashToken token ∧
    (hashToken token).length = 64 ∧
    (∃ uc, rpc = Except.ok uc ∧ w.value = marshalUserContext uc) ∧
    w.ttl = 300000000000 := by
  rcases hasRedis with _ | _
  · rcases rpc with e | uc <;> simp [ValidateToken] at hw
  · rcases hcache : cache ("token_valid:" ++ hashToken token) with _ | cu
    · rcases rpc with e | uc
      · simp [ValidateToken, hcache] at hw
      · simp [ValidateToken, hcache] at hw
        subst hw
        exact ⟨rfl, hashToken_length token, ⟨uc, rfl, rfl⟩, rfl⟩
    · simp [ValidateToken, hcache] at hw

/-- A user context used in witnesses. -/
def ucEx : UserContext := ⟨"u1", "u1@example.com"⟩

/-- An empty cache. -/
def cacheEmpty : String → Option UserContext := fun _ => none

/-- Witness for C5: a concrete miss-path validation and its single write. -/
theorem C5_cache_write_shape_witness :
    (⟨"token_valid:" ++ hashToken "tok", marshalUserContext ucEx,
        300000000000⟩ : CacheWrite).key = "token_valid:" ++ hashToken "tok" ∧
    (hashToken "tok").length = 64 ∧
    (∃ uc, (Except.ok ucEx : Except String UserContext) = Except.ok uc ∧
      (⟨"token_valid:" ++ hashToken "tok", marshalUserContext ucEx,
          300000000000⟩ : CacheWrite).value = marshalUserContext uc) ∧
    (⟨"token_valid:" ++ hashToken "tok", marshalUserContext ucEx,
        300000000000⟩ : CacheWrite).ttl = 300000000000 :=
  C5_cache_write_shape true cacheEmpty (Except.ok ucEx) "tok"
    ⟨"token_valid:" ++ hashToken "tok", marshalUserContext ucEx, 300000000000⟩
    (List.mem_singleton.mpr rfl)

/-- C6: `ValidateToken` is cache-first and never caches a failure.  On a
cache hit the cached context is returned with no RPC call and no write; when
the cache does not yield a hit and the RPC fails, the error is returned with
no cache write; when it does not yield a hit and the RPC succeeds, the
result is stored with the 5-minute TTL. -/
theorem C6_cache_first_policy :
    (∀ (cache : String → Option UserContext) (rpc : Except String UserContext)
        (token : String) (uc : UserContext),
      cache ("token_valid:" ++ hashToken token) = some uc →
      ValidateToken true cache rpc token = ⟨Except.ok uc, [], false⟩)
    ∧
    (∀ (hasRedis : Bool) (cache : String → Option UserContext) (token e : String),
      (hasRedis = true → cache ("token_valid:" ++ hashToken token) = none) →
      ValidateToken hasRedis cache (Except.error e) token =
        ⟨Except.error e, [], true⟩)
    ∧
    (∀ (cache : String → Option UserContext) (token : String) (uc : UserContext),
      cache ("token_valid:" ++ hashToken token) = none →
      ValidateToken true cache (Except.ok uc) token =
        ⟨Except.ok uc,
          [⟨"token_valid:" ++ hashToken token, marshalUserContext uc,
            300000000000⟩], true⟩) := by
  refine ⟨?_, ?_, ?_⟩
  · intro cache rpc token uc hhit
    simp [ValidateToken, hhit]
  · intro hasRedis cache token e hmiss
    rcases hasRedis with _ | _
    · simp [ValidateToken]
    · simp [ValidateToken, hmiss rfl]
  · intro cache token uc hmiss
    simp [ValidateToken, hmiss]

/-- A one-entry cache holding `ucEx` under the hash key of `"tok"`. -/
def cacheWithTok : String → Option UserContext :=
  fun k => if k = "token_valid:" ++ hashToken "tok" then some ucEx else none

/-- Witness for C6 at concrete caches and tokens. -/
theorem C6_cache_first_policy_witness :
    ValidateToken true cacheWithTok (Except.error "down") "tok" =
      ⟨Except.ok ucEx, [], false⟩ ∧
    ValidateToken true cacheEmpty (Except.error "bad token") "tok" =
      ⟨Except.error "bad token", [], true⟩ ∧
    ValidateToken true cacheEmpty (Except.ok ucEx) "tok" =
      ⟨Except.ok ucEx,
        [⟨"token_valid:" ++ hashToken "tok", marshalUserContext ucEx,
          300000000000⟩], true⟩ :=
  ⟨C6_cache_first_policy.1 cacheWithTok (Except.error "down") "tok" ucEx
      (by simp [cacheWithTok]),
   C6_cache_first_policy.2.1 true cacheEmpty "tok" "bad token"
      (fun _ => rfl),
   C6_cache_first_policy.2.2 cacheEmpty "tok" ucEx rfl⟩

/-! ### Token extraction and the middleware's 401 mapping -/

/-- The distinct failures of `extractToken` (its four error messages). -/
inductive ExtractErr where
  | headerNotFound
  | invalidFormat
  | schemeNotBearer
  | emptyToken
deriving DecidableEq, Repr

/-- `strings.SplitN s " " 2`: the whole string when it has no space,
otherwise the part before the first space and everything after it. -/
def splitN2 (s : List Char) : List (List Char) :=
  let pre := s.takeWhile (fun c => c ≠ ' ')
  if pre.length = s.length then [pre] else [pre, s.drop (pre.length + 1)]

/-- `strings.EqualFold` restricted to the ASCII needle used here. -/
def eqFold (a b : List Char) : Bool :=
  a.map Char.toLower == b.map Char.toLower

/-- `strings.TrimSpace`. -/
def trimSpace (s : List Char) : List Char :=
  ((s.dropWhile Char.isWhitespace).reverse.dropWhile Char.isWhitespace).reverse

/-- `extractToken`: the `Authorization` header value as returned by
`r.Header.Get` (the empty string when the header is absent).  Fails with
`headerNotFound` when empty; `invalidFormat` when there is no space;
`schemeNotBearer` when the first word is not `Bearer` case-insensitively;
`emptyToken` when the rest trims to nothing. -/
def extractToken (authHeader : String) : Except ExtractErr String :=
  if authHeader = "" then Except.error ExtractErr.headerNotFound
  else
    match splitN2 authHeader.data with
    | [scheme, rest] =>
        if ¬ (eqFold scheme "Bearer".data = true) then
          Except.error ExtractErr.schemeNotBearer
        else if trimSpace rest = [] then
          Except.error ExtractErr.emptyToken
        else
          Except.ok (String.mk (trimSpace rest))
    | _ => Except.error ExtractErr.invalidFormat

/-- The middleware's response mapping: every `extractToken` failure is
answered with the same 401 `AUTH_TOKEN_MISSING` response; a validation
failure with 401 `AUTH_TOKEN_INVALID`; success passes the user context on. -/
def middlewareAuth (authHeader : String)
    (validate : String → Except String UserContext) :
    Except ErrorResponse UserContext :=
  match extractToken authHeader with
  | Except.error _ =>
      Except.error ⟨401, "AUTH_TOKEN_MISSING", "Authorization token is required"⟩
  | Except.ok token =>
      match validate token with
      | Except.error _ =>
          Except.error ⟨401, "AUTH_TOKEN_INVALID", "Token expired or invalid"⟩
      | Except.ok uc => Except.ok uc

/-- C9 counterexample: a present-but-malformed header (`Basic abc`) fails
extraction with a different error than an absent header, yet the middleware
produces the identical 401 `AUTH_TOKEN_MISSING` response for both, so the
two failure kinds are not distinguishable in the client response. -/
theorem C9_counterexample_same_response :
    extractToken "Basic abc" = Except.error ExtractErr.schemeNotBearer ∧
    extractToken "" = Except.error ExtractErr.headerNotFound ∧
    middlewareAuth "Basic abc" (fun _ => Except.error "never reached") =
      middlewareAuth "" (fun _ => Except.error "never reached") ∧
    middlewareAuth "Basic abc" (fun _ => Except.error "never reached") =
      Except.error ⟨401, "AUTH_TOKEN_MISSING", "Authorization token is required"⟩ :=
  ⟨rfl, rfl, rfl, rfl⟩

/-- C9 amended: extraction fails with `headerNotFound` exactly when the
header is absent (empty), and with one of the distinct malformed-structure
errors otherwise, but the middleware answers every extraction failure with
the same 401 `AUTH_TOKEN_MISSING` response; 401 `AUTH_TOKEN_INVALID` is
produced only when extraction succeeded and validation failed, so the two
extraction failure kinds are not distinguishable in the client response. -/
theorem C9_extraction_amended (h : String)
    (validate : String → Except String UserContext) :
    (extractToken h = Except.error ExtractErr.headerNotFound ↔ h = "") ∧
    (∀ e, extractToken h = Except.error e →
      middlewareAuth h validate =
        Except.error ⟨401, "AUTH_TOKEN_MISSING", "Authorization token is required"⟩) ∧
    (∀ t e2, extractToken h = Except.ok t → validate t = Except.error e2 →
      middlewareAuth h validate =
        Except.error ⟨401, "AUTH_TOKEN_INVALID", "Token expired or invalid"⟩) := by
  refine ⟨⟨?_, ?_⟩, ?_, ?_⟩
  · intro hext
    by_contra hne
    rw [extractToken, if_neg hne] at hext
    rcases hsp : splitN2 h.data with _ | ⟨a, rest⟩
    · rw [hsp] at hext
      simp at hext
    · rcases rest with _ | ⟨b, rest2⟩
      · rw [hsp] at hext
        simp at hext
      · rcases rest2 with _ | ⟨c, rest3⟩
        · rw [hsp] at hext
          simp only [] at hext
          split_ifs at hext <;> simp_all
        · rw [hsp] at hext
          simp at hext
  · rintro rfl
    rfl
  · intro e hext
    simp only [middlewareAuth, hext]
  · intro t e2 hext hval
    simp only [middlewareAuth, hext, hval]

/-- Witness for the amended C9 at concrete headers. -/
theorem C9_extraction_amended_witness :
    (extractToken "Basic x" = Except.error ExtractErr.headerNotFound ↔
      "Basic x" = "") ∧
    middlewareAuth "Basic x" (fun _ => Except.ok ucEx) =
      Except.error ⟨401, "AUTH_TOKEN_MISSING", "Authorization token is required"⟩ ∧
    middlewareAuth "Bearer tok" (fun _ => Except.error "expired") =
      Except.error ⟨401, "AUTH_TOKEN_INVALID", "Token expired or invalid"⟩ :=
  ⟨(C9_extraction_amended "Basic x" (fun _ => Except.ok ucEx)).1,
   (C9_extraction_amended "Basic x" (fun _ => Except.ok ucEx)).2.1
      ExtractErr.schemeNotBearer rfl,
   (C9_extraction_amended "Bearer tok" (fun _ => Except.error "expired")).2.2
      "tok" "expired" rfl rfl⟩

end Gateway
